import Mathlib

/-!
Shallow embedding of the port/connection topology and geometry engine of
qtpynodeeditor (files `node_state.py`, `node_geometry.py`,
`connection_painter.py`).  Python objects with identity become records
carrying a numeric id; `OrderedDict[int, Port]` becomes an association
list `List (Nat × Port)` whose order is the dict's insertion/iteration
order; exceptions become `Except` values whose error part carries the
state as it stood when the exception was raised.
-/

namespace Qtpy

/-- Port type enum from `enums.py` / `port.py`: input, output, or none. -/
inductive PortType
| input
| output
| none
deriving DecidableEq, Repr

/-- A `Port` object.  `pid` models Python object identity (each `Port(...)`
constructor call yields a fresh `pid`).  `connections` is the ordered list
of connection ids attached to this port. -/
structure Port where
  pid : Nat
  portType : PortType
  index : Nat
  connections : List Nat
deriving DecidableEq, Repr

/-- A `Connection` object as seen by `NodeState._update_ports`: its
`_ports` dict maps each port type to the `Port` object (here: its pid) at
that endpoint, if attached. -/
structure Conn where
  inputPort : Option Nat
  outputPort : Option Nat
deriving DecidableEq, Repr

/-- Write `conn._ports[port_type] = <port with id pid>`.  `_update_ports`
only ever does this for the input/output types. -/
def Conn.setEndpoint (c : Conn) (pt : PortType) (pid : Nat) : Conn :=
  match pt with
  | .input => { c with inputPort := some pid }
  | .output => { c with outputPort := some pid }
  | .none => c

/-- Read `conn._ports[port_type]` (the pid of the endpoint port). -/
def Conn.endpoint (c : Conn) (pt : PortType) : Option Nat :=
  match pt with
  | .input => c.inputPort
  | .output => c.outputPort
  | .none => Option.none

/-- The node's model as consumed by `NodeState`: `node.model.num_ports`
maps each port type to the live-reported count. -/
structure NodeModel where
  num_ports : PortType → Nat

/-- The mutable state of `NodeState`: the two ordered port dicts, the
arena of `Connection` objects reachable from the ports (keyed by
connection id, modelling Python references), and the fresh-id counter
used to give each newly constructed `Port` a distinct identity. -/
structure NodeState where
  inputPorts : List (Nat × Port)
  outputPorts : List (Nat × Port)
  conns : List (Nat × Conn)
  nextPid : Nat
deriving DecidableEq, Repr

/-- Read `self._ports[port_type]` (iteration order preserved). -/
def NodeState.portsOf (s : NodeState) (pt : PortType) : List (Nat × Port) :=
  match pt with
  | .input => s.inputPorts
  | .output => s.outputPorts
  | .none => []

/-- Overwrite `self._ports[port_type]`. -/
def NodeState.setPortsOf (s : NodeState) (pt : PortType) (l : List (Nat × Port)) : NodeState :=
  match pt with
  | .input => { s with inputPorts := l }
  | .output => { s with outputPorts := l }
  | .none => s

/-- Modelled from the spec: `Port.add_connection` (file `port.py` is not
under `src/`).  Section 4.1 describes `Port` as a passive container whose
`connections` is an ordered collection; re-attachment appends the
connection at the end. -/
def Port.add_connection (p : Port) (cid : Nat) : Port :=
  { p with connections := p.connections ++ [cid] }

/-- Modelled from the spec: `Port.remove_connection` (file `port.py` is
not under `src/`).  Section 4.1: removes the connection, a no-op if not
present. -/
def Port.remove_connection (p : Port) (cid : Nat) : Port :=
  { p with connections := p.connections.erase cid }

/-- One iteration of the growth loop in `_update_ports`:
`if i not in self._ports[port_type]: self._ports[port_type][i] = Port(...)`.
Assigning a fresh key to an `OrderedDict` appends it in iteration order. -/
def growStep (pt : PortType) (acc : List (Nat × Port) × Nat) (i : Nat) :
    List (Nat × Port) × Nat :=
  let (ports, next) := acc
  if (List.lookup i ports).isSome then acc
  else (ports ++ [(i, ⟨next, pt, i, []⟩)], next + 1)

/-- The growth branch: `for i in range(num_ports): if i not in ...`. -/
def growPorts (pt : PortType) (num : Nat) (ports : List (Nat × Port)) (next : Nat) :
    List (Nat × Port) × Nat :=
  (List.range num).foldl (growStep pt) (ports, next)

/-- The gathering loop of the shrink branch: walk the ports in iteration
order and record, for each port with a non-empty connection list, its
index and a copy of that list. -/
def gatherConnections (ports : List (Nat × Port)) : List (Nat × List Nat) :=
  ports.filterMap fun e => if e.2.connections = [] then Option.none else some (e.1, e.2.connections)

/-- Rebuild of the port dict in the shrink branch:
`OrderedDict((i, Port(...)) for i in range(num_ports))`, each `Port(...)`
call allocating a fresh object. -/
def freshPorts (pt : PortType) (num : Nat) (next : Nat) : List (Nat × Port) :=
  (List.range num).map fun i => (i, ⟨next + i, pt, i, []⟩)

/-- Mutate the `Connection` object with id `cid` in the arena (Python
mutates through the reference; entries with other ids are untouched). -/
def updateConnArena (conns : List (Nat × Conn)) (cid : Nat) (f : Conn → Conn) :
    List (Nat × Conn) :=
  conns.map fun e => if e.1 = cid then (e.1, f e.2) else e

/-- Body of the inner re-assignment loop:
`old_conn._ports[port_type] = new_port; new_port.add_connection(old_conn)`. -/
def reattachStep (pt : PortType) (acc : Port × List (Nat × Conn)) (cid : Nat) :
    Port × List (Nat × Conn) :=
  let (port, arena) := acc
  (port.add_connection cid, updateConnArena arena cid (fun c => c.setEndpoint pt port.pid))

/-- The re-assignment loop of the shrink branch:
`for new_port, connections in zip(new_ports.values(), old_connections.values())`.
`zip` stops at the shorter sequence; ports beyond it keep their (empty)
connection lists. -/
def reattachAll (pt : PortType) (ports : List (Nat × Port)) (gathered : List (List Nat))
    (arena : List (Nat × Conn)) : List (Nat × Port) × List (Nat × Conn) :=
  match ports, gathered with
  | [], _ => ([], arena)
  | ps, [] => (ps, arena)
  | e :: ps, ls :: gs =>
      let (p2, arena2) := ls.foldl (reattachStep pt) (e.2, arena)
      let (rest, arena3) := reattachAll pt ps gs arena2
      ((e.1, p2) :: rest, arena3)

/-- The body of `NodeState._update_ports` for one port type (one iteration
of its `for port_type in self._ports` loop).  A raised `RuntimeError`
becomes an `Except.error` carrying the message and the state as it stood
at the raise. -/
def updatePortsFor (m : NodeModel) (pt : PortType) (s : NodeState) :
    Except (String × NodeState) NodeState :=
  let num := m.num_ports pt
  let cur := (s.portsOf pt).length
  if num = cur then .ok s
  else if num > cur then
    let (ports2, next2) := growPorts pt num (s.portsOf pt) s.nextPid
    .ok { s.setPortsOf pt ports2 with nextPid := next2 }
  else
    let gathered := gatherConnections (s.portsOf pt)
    if gathered.length > num then
      .error ("Gathered too many ports to reconnect", s)
    else
      let fresh := freshPorts pt num s.nextPid
      let (ports2, arena2) := reattachAll pt fresh (gathered.map (·.2)) s.conns
      .ok { s.setPortsOf pt ports2 with conns := arena2, nextPid := s.nextPid + num }

/-- `NodeState._update_ports`: the `for port_type in self._ports` loop;
the dict literal in `__init__` inserts `input` before `output`, so the
input type is reconciled first. -/
def update_ports (m : NodeModel) (s : NodeState) :
    Except (String × NodeState) NodeState := do
  let s1 ← updatePortsFor m .input s
  updatePortsFor m .output s1

/-- `NodeState.__init__`: build `num_ports` fresh ports per type (input
dict first), no connections, starting from fresh-id counter 0. -/
def NodeState.init (m : NodeModel) : NodeState :=
  let ni := m.num_ports .input
  let no := m.num_ports .output
  { inputPorts := freshPorts .input ni 0
    outputPorts := freshPorts .output no (0 + ni)
    conns := []
    nextPid := ni + no }

/-- `NodeState.__getitem__`: reconcile, then return the requested dict
(together with the post-call state, since the call mutates `self`). -/
def getitem (m : NodeModel) (s : NodeState) (key : PortType) :
    Except (String × NodeState) (List (Nat × Port) × NodeState) := do
  let s1 ← update_ports m s
  .ok (s1.portsOf key, s1)

/-- `NodeState.connections(port_type, port_index)`: reconcile, then copy
the port's connection list; a missing index is a `KeyError`. -/
def connections (m : NodeModel) (s : NodeState) (pt : PortType) (idx : Nat) :
    Except (String × NodeState) (List Nat × NodeState) := do
  let s1 ← update_ports m s
  match List.lookup idx (s1.portsOf pt) with
  | some p => .ok (p.connections, s1)
  | Option.none => .error ("KeyError", s1)

/-- `NodeState.erase_connection(port_type, port_index, connection)`:
reconcile, then `remove_connection` on the port at that index. -/
def erase_connection (m : NodeModel) (s : NodeState) (pt : PortType) (idx : Nat)
    (cid : Nat) : Except (String × NodeState) NodeState := do
  let s1 ← update_ports m s
  match List.lookup idx (s1.portsOf pt) with
  | some _ =>
      .ok (s1.setPortsOf pt ((s1.portsOf pt).map
        fun e => if e.1 = idx then (e.1, e.2.remove_connection cid) else e))
  | Option.none => .error ("KeyError", s1)

/-- `NodeState.input_connections` / `output_connections`: reconcile, then
list the connections of every port of the type in iteration order. -/
def connectionsOfType (m : NodeModel) (s : NodeState) (pt : PortType) :
    Except (String × NodeState) (List Nat × NodeState) := do
  let s1 ← update_ports m s
  .ok (((s1.portsOf pt).map (fun e => e.2.connections)).flatten, s1)

/-- Contiguity invariant of a port dict: its keys, in iteration order,
are exactly `0, 1, ..., len-1`. -/
def keysContiguous (l : List (Nat × Port)) : Prop :=
  l.map Prod.fst = List.range l.length

/-- Well-formed `NodeState`: both port dicts have contiguous keys (as
established by `__init__` and preserved by reconciliation). -/
def WF (s : NodeState) : Prop :=
  keysContiguous s.inputPorts ∧ keysContiguous s.outputPorts

instance (l : List (Nat × Port)) : Decidable (keysContiguous l) := by
  unfold keysContiguous; infer_instance

instance (s : NodeState) : Decidable (WF s) := by
  unfold WF; infer_instance

/-- Post-state contiguity against the model: each type's key set is
exactly `0 .. num_ports-1` as currently reported by the model. -/
def contiguousWith (m : NodeModel) (s : NodeState) : Prop :=
  s.inputPorts.map Prod.fst = List.range (m.num_ports .input) ∧
  s.outputPorts.map Prod.fst = List.range (m.num_ports .output)

section ListLemmas

variable {α : Type _}

lemma lookup_eq_none_of_not_mem_keys (l : List (Nat × α)) (k : Nat)
    (h : k ∉ l.map Prod.fst) : List.lookup k l = Option.none := by
  induction l with
  | nil => rfl
  | cons e t ih =>
      obtain ⟨k1, v⟩ := e
      simp only [List.map_cons, List.mem_cons, not_or] at h
      simp only [List.lookup_cons, beq_false_of_ne h.1]
      exact ih h.2

lemma lookup_isSome_of_mem_keys (l : List (Nat × α)) (k : Nat)
    (h : k ∈ l.map Prod.fst) : (List.lookup k l).isSome := by
  induction l with
  | nil => simp at h
  | cons e t ih =>
      obtain ⟨k1, v⟩ := e
      simp only [List.map_cons, List.mem_cons] at h
      by_cases hk : k = k1
      · subst hk; simp [List.lookup_cons]
      · simp only [List.lookup_cons, beq_false_of_ne hk]
        exact ih (h.resolve_left hk)

end ListLemmas

section GrowLemmas

/-- Unfolding one step of the growth loop. -/
lemma growPorts_succ (pt : PortType) (n : Nat) (ports : List (Nat × Port)) (next : Nat) :
    growPorts pt (n + 1) ports next = growStep pt (growPorts pt n ports next) n := by
  unfold growPorts
  rw [List.range_succ, List.foldl_append]
  rfl

/-- Growth loop body when the key is already present: skip. -/
lemma growStep_of_isSome {pt : PortType} {ports : List (Nat × Port)} {next i : Nat}
    (h : (List.lookup i ports).isSome) :
    growStep pt (ports, next) i = (ports, next) := by
  obtain ⟨v, hv⟩ := Option.isSome_iff_exists.mp h
  unfold growStep
  simp [hv]

/-- Growth loop body when the key is absent: append a fresh empty port. -/
lemma growStep_of_none {pt : PortType} {ports : List (Nat × Port)} {next i : Nat}
    (h : List.lookup i ports = Option.none) :
    growStep pt (ports, next) i = (ports ++ [(i, ⟨next, pt, i, []⟩)], next + 1) := by
  unfold growStep
  simp [h]

/-- While the loop index stays below the current (contiguous) count, the
membership test succeeds and nothing is appended. -/
lemma growPorts_eq_of_le (pt : PortType) (ports : List (Nat × Port)) (next : Nat)
    (hc : keysContiguous ports) :
    ∀ n, n ≤ ports.length → growPorts pt n ports next = (ports, next) := by
  intro n
  induction n with
  | zero => intro _; rfl
  | succ k ih =>
      intro hk
      rw [growPorts_succ, ih (Nat.le_of_succ_le hk)]
      have hmem : k ∈ ports.map Prod.fst := by
        rw [hc]; exact List.mem_range.mpr (Nat.lt_of_succ_le hk)
      exact growStep_of_isSome (lookup_isSome_of_mem_keys ports k hmem)

/-- Exact description of the growth branch on a contiguous dict: the old
entries are kept untouched and fresh empty ports are appended at the
missing indices `cur, cur+1, ..., n-1`, consuming fresh ids in order. -/
lemma growPorts_eq_append (pt : PortType) (ports : List (Nat × Port)) (next : Nat)
    (hc : keysContiguous ports) :
    ∀ n, ports.length ≤ n →
      growPorts pt n ports next =
        (ports ++ (List.range' ports.length (n - ports.length)).map
            (fun i => (i, ⟨next + (i - ports.length), pt, i, []⟩)),
         next + (n - ports.length)) := by
  intro n
  induction n with
  | zero =>
      intro hn
      have h0 : ports.length = 0 := Nat.le_zero.mp hn
      simp [growPorts, h0]
  | succ k ih =>
      intro hk
      rcases Nat.lt_or_ge ports.length (k + 1) with hlt | hge
      · have hle : ports.length ≤ k := Nat.lt_succ_iff.mp hlt
        rw [growPorts_succ, ih hle]
        have hkeys : (ports ++ (List.range' ports.length (k - ports.length)).map
            (fun i => (i, (⟨next + (i - ports.length), pt, i, []⟩ : Port)))).map Prod.fst
            = List.range k := by
          rw [List.map_append, hc, List.map_map]
          have hco : (Prod.fst ∘ fun i => ((i : Nat), (⟨next + (i - ports.length), pt, i, []⟩ : Port)))
              = id := by funext i; rfl
          rw [hco, List.map_id, List.range_eq_range', List.range_eq_range']
          have happ := List.range'_append 0 ports.length (k - ports.length) 1
          simp only [Nat.zero_add, Nat.one_mul] at happ
          rw [happ]
          congr 1
          omega
        have hnone : List.lookup k (ports ++ (List.range' ports.length (k - ports.length)).map
            (fun i => (i, (⟨next + (i - ports.length), pt, i, []⟩ : Port)))) = Option.none := by
          apply lookup_eq_none_of_not_mem_keys
          rw [hkeys]
          exact fun hmem => (Nat.lt_irrefl k) (List.mem_range.mp hmem)
        rw [growStep_of_none hnone]
        refine Prod.ext ?_ ?_
        · show ports ++ _ ++ _ = ports ++ _
          rw [List.append_assoc]
          congr 1
          have hsucc : k + 1 - ports.length = (k - ports.length) + 1 := by omega
          rw [hsucc, List.range'_1_concat, List.map_append]
          have hk2 : ports.length + (k - ports.length) = k := by omega
          rw [hk2]
          rfl
        · show next + (k - ports.length) + 1 = next + (k + 1 - ports.length)
          omega
      · have heq : ports.length = k + 1 := Nat.le_antisymm hk hge
        rw [growPorts_eq_of_le pt ports next hc (k+1) (Nat.le_of_eq heq.symm)]
        simp [heq]

end GrowLemmas

section ShrinkLemmas

lemma freshPorts_length (pt : PortType) (num next : Nat) :
    (freshPorts pt num next).length = num := by
  simp [freshPorts]

lemma freshPorts_keys (pt : PortType) (num next : Nat) :
    (freshPorts pt num next).map Prod.fst = List.range num := by
  unfold freshPorts
  rw [List.map_map]
  have hco : (Prod.fst ∘ fun i => ((i : Nat), (⟨next + i, pt, i, []⟩ : Port))) = id := rfl
  rw [hco, List.map_id]

lemma freshPorts_getElem (pt : PortType) (num next k : Nat) (hk : k < num) :
    (freshPorts pt num next)[k]? = some (k, ⟨next + k, pt, k, []⟩) := by
  unfold freshPorts
  rw [List.getElem?_map, List.getElem?_range hk]
  rfl

/-- The inner `for old_conn in connections` loop: the new port ends up
with exactly the gathered list appended (in order), and the arena
receives one endpoint re-assignment per connection id, all pointing at
that port's identity. -/
lemma foldl_reattachStep (pt : PortType) (ls : List Nat) :
    ∀ (p : Port) (a : List (Nat × Conn)),
      ls.foldl (reattachStep pt) (p, a) =
        ({ p with connections := p.connections ++ ls },
         ls.foldl (fun a cid => updateConnArena a cid (fun c => c.setEndpoint pt p.pid)) a) := by
  induction ls with
  | nil => intro p a; simp
  | cons c t ih =>
      intro p a
      simp only [List.foldl_cons]
      have hstep : reattachStep pt (p, a) c =
          (p.add_connection c, updateConnArena a c (fun x => x.setEndpoint pt p.pid)) := rfl
      rw [hstep, ih]
      simp [Port.add_connection]

/-- Sequential endpoint re-assignments, flattened into a list of
(connection id, new port id) updates. -/
def applyEndpointUpdates (pt : PortType) (ups : List (Nat × Nat))
    (a : List (Nat × Conn)) : List (Nat × Conn) :=
  ups.foldl (fun a u => updateConnArena a u.1 (fun c => c.setEndpoint pt u.2)) a

lemma foldl_update_eq_applyAll (pt : PortType) (pid : Nat) (ls : List Nat) :
    ∀ a, ls.foldl (fun a cid => updateConnArena a cid (fun c => c.setEndpoint pt pid)) a
      = applyEndpointUpdates pt (ls.map (fun cid => (cid, pid))) a := by
  induction ls with
  | nil => intro a; rfl
  | cons c t ih => intro a; simp only [List.foldl_cons, List.map_cons]; rw [ih]; rfl

lemma applyEndpointUpdates_append (pt : PortType) (u1 u2 : List (Nat × Nat)) (a : List (Nat × Conn)) :
    applyEndpointUpdates pt (u1 ++ u2) a
      = applyEndpointUpdates pt u2 (applyEndpointUpdates pt u1 a) := by
  unfold applyEndpointUpdates
  rw [List.foldl_append]

/-- The (connection id, target port id) pairs generated by the shrink
re-assignment loop, in execution order. -/
def flatPairs (ports : List (Nat × Port)) (g : List (List Nat)) : List (Nat × Nat) :=
  ((ports.zip g).map (fun e => e.2.map (fun cid => (cid, e.1.2.pid)))).flatten

lemma reattachAll_snd (pt : PortType) :
    ∀ (ports : List (Nat × Port)) (g : List (List Nat)) (a : List (Nat × Conn)),
      (reattachAll pt ports g a).2 = applyEndpointUpdates pt (flatPairs ports g) a := by
  intro ports
  induction ports with
  | nil => intro g a; cases g <;> rfl
  | cons e ps ih =>
      intro g a
      cases g with
      | nil => rfl
      | cons ls gs =>
          have hflat : flatPairs (e :: ps) (ls :: gs)
              = (ls.map fun cid => (cid, e.2.pid)) ++ flatPairs ps gs := by
            unfold flatPairs
            rw [List.zip_cons_cons, List.map_cons, List.flatten_cons]
          show (reattachAll pt (e :: ps) (ls :: gs) a).2 = _
          unfold reattachAll
          rw [foldl_reattachStep]
          simp only []
          rw [ih, foldl_update_eq_applyAll, hflat, applyEndpointUpdates_append]

lemma reattachAll_fst_getElem (pt : PortType) :
    ∀ (ports : List (Nat × Port)) (g : List (List Nat)) (a : List (Nat × Conn)) (k : Nat),
      ((reattachAll pt ports g a).1)[k]? =
        (ports[k]?).map (fun e => (e.1, { e.2 with connections := e.2.connections ++ g.getD k [] })) := by
  intro ports
  induction ports with
  | nil => intro g a k; cases g <;> simp [reattachAll]
  | cons e ps ih =>
      intro g a k
      cases g with
      | nil =>
          show ((e :: ps))[k]? = _
          cases hk : (e :: ps)[k]? with
          | none => rfl
          | some v => simp
      | cons ls gs =>
          show ((reattachAll pt (e :: ps) (ls :: gs) a).1)[k]? = _
          unfold reattachAll
          rw [foldl_reattachStep]
          simp only []
          cases k with
          | zero => simp
          | succ k' =>
              rw [List.getElem?_cons_succ, List.getElem?_cons_succ, List.getD_cons_succ]
              exact ih gs _ k'

lemma reattachAll_fst_keys (pt : PortType) (ports : List (Nat × Port)) (g : List (List Nat))
    (a : List (Nat × Conn)) :
    (reattachAll pt ports g a).1.map Prod.fst = ports.map Prod.fst := by
  apply List.ext_getElem?
  intro n
  rw [List.getElem?_map, List.getElem?_map, reattachAll_fst_getElem]
  cases ports[n]? <;> rfl

lemma lookup_updateConnArena_self (a : List (Nat × Conn)) (cid : Nat) (f : Conn → Conn) :
    List.lookup cid (updateConnArena a cid f) = (List.lookup cid a).map f := by
  induction a with
  | nil => rfl
  | cons e t ih =>
      obtain ⟨k, c⟩ := e
      by_cases hk : k = cid
      · subst hk
        simp [updateConnArena, List.lookup_cons]
      · have hne : (cid == k) = false := beq_false_of_ne fun h => hk h.symm
        unfold updateConnArena at ih ⊢
        simp only [List.map_cons]
        rw [if_neg hk]
        simp only [List.lookup_cons, hne]
        exact ih

lemma lookup_updateConnArena_ne (a : List (Nat × Conn)) (c cid : Nat) (f : Conn → Conn)
    (h : c ≠ cid) :
    List.lookup c (updateConnArena a cid f) = List.lookup c a := by
  induction a with
  | nil => rfl
  | cons e t ih =>
      obtain ⟨k, c0⟩ := e
      unfold updateConnArena at ih ⊢
      simp only [List.map_cons]
      by_cases hk : k = cid
      · subst hk
        rw [if_pos rfl]
        simp only [List.lookup_cons, beq_false_of_ne h]
        exact ih
      · rw [if_neg hk]
        by_cases hck : c = k
        · subst hck
          simp [List.lookup_cons]
        · simp only [List.lookup_cons, beq_false_of_ne hck]
          exact ih

lemma lookup_applyAll_not_mem (pt : PortType) (ups : List (Nat × Nat)) (cid : Nat)
    (h : cid ∉ ups.map Prod.fst) :
    ∀ a, List.lookup cid (applyEndpointUpdates pt ups a) = List.lookup cid a := by
  induction ups with
  | nil => intro a; rfl
  | cons u t ih =>
      intro a
      simp only [List.map_cons, List.mem_cons, not_or] at h
      show List.lookup cid (applyEndpointUpdates pt t (updateConnArena a u.1 _)) = _
      rw [ih h.2, lookup_updateConnArena_ne _ _ _ _ h.1]

lemma lookup_applyAll_mem (pt : PortType) (ups : List (Nat × Nat)) (cid pid : Nat)
    (h1 : (cid, pid) ∈ ups) (h2 : (ups.map Prod.fst).Nodup) :
    ∀ a, List.lookup cid (applyEndpointUpdates pt ups a)
      = (List.lookup cid a).map (fun c => c.setEndpoint pt pid) := by
  induction ups with
  | nil => cases h1
  | cons u t ih =>
      intro a
      rw [List.map_cons, List.nodup_cons] at h2
      show List.lookup cid (applyEndpointUpdates pt t (updateConnArena a u.1 _)) = _
      rcases List.mem_cons.mp h1 with heq | hmem
      · have hcid : u.1 = cid := by rw [← heq]
        have hpid : u.2 = pid := by rw [← heq]
        subst hcid
        have hnot : u.1 ∉ t.map Prod.fst := h2.1
        rw [lookup_applyAll_not_mem pt t u.1 hnot, lookup_updateConnArena_self, hpid]
      · have hne : cid ≠ u.1 := by
          intro hcontra
          exact h2.1 (hcontra ▸ (List.mem_map.mpr ⟨(cid, pid), hmem, rfl⟩))
        rw [ih hmem h2.2, lookup_updateConnArena_ne _ _ _ _ hne]

end ShrinkLemmas

section BranchLemmas

lemma portsOf_setPortsOf_self (s : NodeState) (pt : PortType) (l : List (Nat × Port))
    (hpt : pt ≠ PortType.none) : (s.setPortsOf pt l).portsOf pt = l := by
  cases pt
  · rfl
  · rfl
  · exact absurd rfl hpt

lemma portsOf_setPortsOf_other (s : NodeState) (pt pt2 : PortType) (l : List (Nat × Port))
    (h : pt2 ≠ pt) : (s.setPortsOf pt l).portsOf pt2 = s.portsOf pt2 := by
  cases pt <;> cases pt2 <;> first | rfl | exact absurd rfl h

lemma portsOf_withNextPid (x : NodeState) (n : Nat) (pt : PortType) :
    ({ x with nextPid := n } : NodeState).portsOf pt = x.portsOf pt := by
  cases pt <;> rfl

lemma portsOf_withConns (x : NodeState) (a : List (Nat × Conn)) (n : Nat) (pt : PortType) :
    ({ x with conns := a, nextPid := n } : NodeState).portsOf pt = x.portsOf pt := by
  cases pt <;> rfl

/-- Branch equation: the reported count matches the current count, so
reconciliation `continue`s without touching anything. -/
lemma updatePortsFor_eq_count (m : NodeModel) (pt : PortType) (s : NodeState)
    (h : m.num_ports pt = (s.portsOf pt).length) :
    updatePortsFor m pt s = .ok s := by
  simp only [updatePortsFor]
  rw [if_pos h]

/-- Branch equation: the growth path. -/
lemma updatePortsFor_grow_eq (m : NodeModel) (pt : PortType) (s : NodeState)
    (p2 : List (Nat × Port)) (n2 : Nat)
    (h : (s.portsOf pt).length < m.num_ports pt)
    (hg : growPorts pt (m.num_ports pt) (s.portsOf pt) s.nextPid = (p2, n2)) :
    updatePortsFor m pt s = .ok { s.setPortsOf pt p2 with nextPid := n2 } := by
  simp only [updatePortsFor]
  rw [if_neg (by omega), if_pos h, hg]

/-- Branch equation: the shrink path that raises `RuntimeError`; the
error carries the state exactly as it was at entry (the gathering loop
only reads). -/
lemma updatePortsFor_shrink_error (m : NodeModel) (pt : PortType) (s : NodeState)
    (h1 : m.num_ports pt < (s.portsOf pt).length)
    (h2 : m.num_ports pt < (gatherConnections (s.portsOf pt)).length) :
    updatePortsFor m pt s = .error ("Gathered too many ports to reconnect", s) := by
  simp only [updatePortsFor]
  rw [if_neg (by omega), if_neg (by omega), if_pos h2]

/-- Branch equation: the successful shrink path. -/
lemma updatePortsFor_shrink_ok (m : NodeModel) (pt : PortType) (s : NodeState)
    (p2 : List (Nat × Port)) (a2 : List (Nat × Conn))
    (h1 : m.num_ports pt < (s.portsOf pt).length)
    (h2 : (gatherConnections (s.portsOf pt)).length ≤ m.num_ports pt)
    (hr : reattachAll pt (freshPorts pt (m.num_ports pt) s.nextPid)
        ((gatherConnections (s.portsOf pt)).map (·.2)) s.conns = (p2, a2)) :
    updatePortsFor m pt s =
      .ok { s.setPortsOf pt p2 with conns := a2, nextPid := s.nextPid + m.num_ports pt } := by
  simp only [updatePortsFor]
  rw [if_neg (by omega), if_neg (by omega), if_neg (by omega), hr]

/-- Any raise inside per-type reconciliation happens in the shrink
overflow check, before any rebuild: the carried state is exactly the
entry state. -/
lemma updatePortsFor_error_spec (m : NodeModel) (pt : PortType) (s : NodeState)
    (msg : String) (s' : NodeState)
    (h : updatePortsFor m pt s = .error (msg, s')) :
    s' = s ∧ msg = "Gathered too many ports to reconnect"
    ∧ m.num_ports pt < (s.portsOf pt).length
    ∧ m.num_ports pt < (gatherConnections (s.portsOf pt)).length := by
  rcases Nat.lt_trichotomy (m.num_ports pt) ((s.portsOf pt).length) with hlt | heq | hgt
  · by_cases h2 : m.num_ports pt < (gatherConnections (s.portsOf pt)).length
    · rw [updatePortsFor_shrink_error m pt s hlt h2] at h
      rw [Except.error.injEq, Prod.mk.injEq] at h
      exact ⟨h.2.symm, h.1.symm, hlt, h2⟩
    · push_neg at h2
      rcases hre : reattachAll pt (freshPorts pt (m.num_ports pt) s.nextPid)
          ((gatherConnections (s.portsOf pt)).map (·.2)) s.conns with ⟨p2, a2⟩
      rw [updatePortsFor_shrink_ok m pt s p2 a2 hlt h2 hre] at h
      cases h
  · rw [updatePortsFor_eq_count m pt s heq] at h
    cases h
  · rcases hg : growPorts pt (m.num_ports pt) (s.portsOf pt) s.nextPid with ⟨p2, n2⟩
    rw [updatePortsFor_grow_eq m pt s p2 n2 hgt hg] at h
    cases h

/-- Per-type reconciliation never touches the other port types'
collections. -/
lemma updatePortsFor_ok_other (m : NodeModel) (pt : PortType) (s s' : NodeState)
    (hok : updatePortsFor m pt s = .ok s') :
    ∀ pt2, pt2 ≠ pt → s'.portsOf pt2 = s.portsOf pt2 := by
  intro pt2 hne
  rcases Nat.lt_trichotomy (m.num_ports pt) ((s.portsOf pt).length) with hlt | heq | hgt
  · by_cases h2 : m.num_ports pt < (gatherConnections (s.portsOf pt)).length
    · rw [updatePortsFor_shrink_error m pt s hlt h2] at hok
      cases hok
    · push_neg at h2
      rcases hre : reattachAll pt (freshPorts pt (m.num_ports pt) s.nextPid)
          ((gatherConnections (s.portsOf pt)).map (·.2)) s.conns with ⟨p2, a2⟩
      rw [updatePortsFor_shrink_ok m pt s p2 a2 hlt h2 hre] at hok
      rw [Except.ok.injEq] at hok
      rw [← hok, portsOf_withConns, portsOf_setPortsOf_other s pt pt2 p2 hne]
  · rw [updatePortsFor_eq_count m pt s heq] at hok
    rw [Except.ok.injEq] at hok
    rw [← hok]
  · rcases hg : growPorts pt (m.num_ports pt) (s.portsOf pt) s.nextPid with ⟨p2, n2⟩
    rw [updatePortsFor_grow_eq m pt s p2 n2 hgt hg] at hok
    rw [Except.ok.injEq] at hok
    rw [← hok, portsOf_withNextPid, portsOf_setPortsOf_other s pt pt2 p2 hne]

lemma keysContiguous_of_range {l : List (Nat × Port)} {n : Nat}
    (h : l.map Prod.fst = List.range n) : keysContiguous l := by
  have hlen : l.length = n := by
    have := congrArg List.length h
    rwa [List.length_map, List.length_range] at this
  unfold keysContiguous
  rw [h, hlen]

/-- Per-type reconciliation on a contiguous collection succeeds with the
key set exactly `0 .. num_ports-1`. -/
lemma updatePortsFor_ok_keys (m : NodeModel) (pt : PortType) (s s' : NodeState)
    (hpt : pt ≠ PortType.none)
    (hc : keysContiguous (s.portsOf pt))
    (hok : updatePortsFor m pt s = .ok s') :
    (s'.portsOf pt).map Prod.fst = List.range (m.num_ports pt) := by
  rcases Nat.lt_trichotomy (m.num_ports pt) ((s.portsOf pt).length) with hlt | heq | hgt
  · by_cases h2 : m.num_ports pt < (gatherConnections (s.portsOf pt)).length
    · rw [updatePortsFor_shrink_error m pt s hlt h2] at hok
      cases hok
    · push_neg at h2
      rcases hre : reattachAll pt (freshPorts pt (m.num_ports pt) s.nextPid)
          ((gatherConnections (s.portsOf pt)).map (·.2)) s.conns with ⟨p2, a2⟩
      rw [updatePortsFor_shrink_ok m pt s p2 a2 hlt h2 hre] at hok
      rw [Except.ok.injEq] at hok
      rw [← hok, portsOf_withConns, portsOf_setPortsOf_self s pt p2 hpt]
      have := reattachAll_fst_keys pt (freshPorts pt (m.num_ports pt) s.nextPid)
        ((gatherConnections (s.portsOf pt)).map (·.2)) s.conns
      rw [hre] at this
      simp only at this
      rw [this, freshPorts_keys]
  · rw [updatePortsFor_eq_count m pt s heq] at hok
    rw [Except.ok.injEq] at hok
    rw [← hok, hc, heq]
  · rcases hg : growPorts pt (m.num_ports pt) (s.portsOf pt) s.nextPid with ⟨p2, n2⟩
    rw [updatePortsFor_grow_eq m pt s p2 n2 hgt hg] at hok
    rw [Except.ok.injEq] at hok
    rw [← hok, portsOf_withNextPid, portsOf_setPortsOf_self s pt p2 hpt]
    have hga := growPorts_eq_append pt (s.portsOf pt) s.nextPid hc (m.num_ports pt)
      (Nat.le_of_lt hgt)
    rw [hg] at hga
    have hp2 : p2 = s.portsOf pt ++ (List.range' (s.portsOf pt).length
        (m.num_ports pt - (s.portsOf pt).length)).map
        (fun i => (i, ⟨s.nextPid + (i - (s.portsOf pt).length), pt, i, []⟩)) :=
      congrArg Prod.fst hga
    rw [hp2, List.map_append, hc, List.map_map]
    have hco : (Prod.fst ∘ fun i =>
        ((i : Nat), (⟨s.nextPid + (i - (s.portsOf pt).length), pt, i, []⟩ : Port))) = id := rfl
    rw [hco, List.map_id, List.range_eq_range', List.range_eq_range']
    have happ := List.range'_append 0 (s.portsOf pt).length
      (m.num_ports pt - (s.portsOf pt).length) 1
    simp only [Nat.zero_add, Nat.one_mul] at happ
    rw [happ]
    congr 1
    omega

end BranchLemmas

section LoopLemmas

lemma except_bind_ok {ε α β : Type _} (a : α) (f : α → Except ε β) :
    (Except.ok a >>= f : Except ε β) = f a := rfl

lemma except_bind_error {ε α β : Type _} (e : ε) (f : α → Except ε β) :
    (Except.error e >>= f : Except ε β) = Except.error e := rfl

lemma update_ports_ok_cases (m : NodeModel) (s s' : NodeState)
    (h : update_ports m s = .ok s') :
    ∃ s1, updatePortsFor m .input s = .ok s1 ∧ updatePortsFor m .output s1 = .ok s' := by
  unfold update_ports at h
  rcases h1 : updatePortsFor m .input s with e1 | s1 <;> rw [h1] at h
  · rw [except_bind_error] at h
    cases h
  · rw [except_bind_ok] at h
    exact ⟨s1, rfl, h⟩

lemma update_ports_error_cases (m : NodeModel) (s : NodeState) (e : String × NodeState)
    (h : update_ports m s = .error e) :
    updatePortsFor m .input s = .error e ∨
    ∃ s1, updatePortsFor m .input s = .ok s1 ∧ updatePortsFor m .output s1 = .error e := by
  unfold update_ports at h
  rcases h1 : updatePortsFor m .input s with e1 | s1 <;> rw [h1] at h
  · rw [except_bind_error] at h
    cases h
    exact Or.inl rfl
  · rw [except_bind_ok] at h
    exact Or.inr ⟨s1, rfl, h⟩

/-- `__init__` establishes the contiguity invariant assumed by the
reconciliation lemmas (and `update_ports_ok_spec` shows reconciliation
preserves it). -/
lemma init_WF (m : NodeModel) : WF (NodeState.init m) := by
  constructor
  · exact keysContiguous_of_range
      (n := m.num_ports .input) (freshPorts_keys .input (m.num_ports .input) 0)
  · exact keysContiguous_of_range
      (n := m.num_ports .output)
      (freshPorts_keys .output (m.num_ports .output) (0 + m.num_ports .input))

/-- A successful `_update_ports` leaves every key set contiguous and
matching the model's reported counts. -/
lemma update_ports_ok_spec (m : NodeModel) (s s' : NodeState)
    (hwf : WF s) (hok : update_ports m s = .ok s') :
    contiguousWith m s' ∧ WF s' := by
  obtain ⟨s1, h1, h2⟩ := update_ports_ok_cases m s s' hok
  have hkin : (s1.portsOf .input).map Prod.fst = List.range (m.num_ports .input) :=
    updatePortsFor_ok_keys m .input s s1 (by decide) hwf.1 h1
  have hout1 : s1.portsOf .output = s.portsOf .output :=
    updatePortsFor_ok_other m .input s s1 h1 .output (by decide)
  have hkout : (s'.portsOf .output).map Prod.fst = List.range (m.num_ports .output) := by
    refine updatePortsFor_ok_keys m .output s1 s' (by decide) ?_ h2
    rw [show s1.portsOf .output = s.portsOf .output from hout1]
    exact hwf.2
  have hin' : s'.portsOf .input = s1.portsOf .input :=
    updatePortsFor_ok_other m .output s1 s' h2 .input (by decide)
  have hkin' : (s'.portsOf .input).map Prod.fst = List.range (m.num_ports .input) := by
    rw [hin']; exact hkin
  exact ⟨⟨hkin', hkout⟩, keysContiguous_of_range hkin', keysContiguous_of_range hkout⟩

end LoopLemmas

section GatherLemmas

/-- The keys of the flattened update pairs are exactly the gathered
connection ids, in gathering order. -/
lemma flatPairs_keys (ports : List (Nat × Port)) (g : List (List Nat))
    (hlen : g.length ≤ ports.length) :
    (flatPairs ports g).map Prod.fst = g.flatten := by
  unfold flatPairs
  rw [List.map_flatten, List.map_map]
  have hco : (List.map Prod.fst ∘ fun (e : (Nat × Port) × List Nat) =>
      e.2.map (fun cid => (cid, e.1.2.pid))) = fun e => e.2 := by
    funext e
    rw [Function.comp_apply, List.map_map]
    have : (Prod.fst ∘ fun cid => ((cid : Nat), e.1.2.pid)) = id := rfl
    rw [this, List.map_id]
  rw [hco]
  rw [show (fun (e : (Nat × Port) × List Nat) => e.2) = Prod.snd from rfl]
  rw [List.map_snd_zip ports g hlen]

lemma flatPairs_mem (ports : List (Nat × Port)) (g : List (List Nat)) (k cid : Nat)
    (hk : k < g.length)
    (p : Nat × Port) (hp : ports[k]? = some p)
    (hmem : cid ∈ g.getD k []) :
    (cid, p.2.pid) ∈ flatPairs ports g := by
  unfold flatPairs
  rw [List.mem_flatten]
  refine ⟨(g[k]).map (fun cid => (cid, p.2.pid)), ?_, ?_⟩
  · have hzip : (ports.zip g)[k]? = some (p, g[k]) :=
      List.getElem?_zip_eq_some.mpr ⟨hp, List.getElem?_eq_getElem hk⟩
    have hmapk : ((ports.zip g).map (fun e => e.2.map (fun cid => (cid, e.1.2.pid))))[k]?
        = some ((g[k]).map (fun cid => (cid, p.2.pid))) := by
      rw [List.getElem?_map, hzip]
      rfl
    exact List.getElem?_mem hmapk
  · rw [List.getD_eq_getElem g [] hk] at hmem
    exact List.mem_map.mpr ⟨cid, hmem, rfl⟩

/-- Gathering keeps a subsequence of the original keys. -/
lemma gatherConnections_keys_sublist (l : List (Nat × Port)) :
    ((gatherConnections l).map Prod.fst).Sublist (l.map Prod.fst) := by
  induction l with
  | nil => simp [gatherConnections]
  | cons e t ih =>
      unfold gatherConnections at ih ⊢
      rw [List.filterMap_cons]
      by_cases he : e.2.connections = []
      · rw [if_pos he]
        exact ih.cons e.1
      · rw [if_neg he]
        rw [List.map_cons, List.map_cons]
        exact ih.cons₂ e.1

/-- On a contiguous dict, the gathered non-empty indices come out in
strictly increasing order: the k-th gathered entry belongs to the k-th
lowest non-empty old index. -/
lemma gatherConnections_keys_sorted (l : List (Nat × Port)) (hc : keysContiguous l) :
    List.Pairwise (· < ·) ((gatherConnections l).map Prod.fst) := by
  refine List.Pairwise.sublist (gatherConnections_keys_sublist l) ?_
  rw [hc]
  exact List.pairwise_lt_range l.length

end GatherLemmas

section ClaimC1

/-- Fixture for C1: the model reports input count 2 (current 1, legal
growth) and output count 2 while all three current output ports hold a
connection (illegal shrink). -/
def exC1model : NodeModel :=
  ⟨fun pt => match pt with | .input => 2 | .output => 2 | .none => 0⟩

def exC1state : NodeState :=
  { inputPorts := [(0, ⟨0, .input, 0, []⟩)]
    outputPorts := [(0, ⟨1, .output, 0, [10]⟩), (1, ⟨2, .output, 1, [11]⟩),
      (2, ⟨3, .output, 2, [12]⟩)]
    conns := [(10, ⟨some 100, some 1⟩), (11, ⟨some 100, some 2⟩), (12, ⟨some 100, some 3⟩)]
    nextPid := 4 }

/-- C1, counterexample: `_update_ports` raises on the illegal output
shrink, but the input collection was already rebuilt (grown) earlier in
the same call, so a mutation *is* observable on the error path; the port
collections are not exactly as they were before the call. -/
theorem claimC1_counterexample :
    update_ports exC1model exC1state =
      .error ("Gathered too many ports to reconnect",
        { exC1state with
            inputPorts := exC1state.inputPorts ++ [(1, ⟨4, .input, 1, []⟩)]
            nextPid := 5 })
    ∧ exC1state.inputPorts ++ [(1, ⟨4, .input, 1, []⟩)] ≠ exC1state.inputPorts :=
  ⟨rfl, by decide⟩

/-- C1 (amended): when reconciliation of one port type observes that the
count shrank below the number of indices holding a connection, it raises
`RuntimeError` before any port of that type is rebuilt, and the state at
the raise is exactly the state at entry of that type's processing; since
the output type is processed last, the output collection observed on any
error equals its pre-call value — but a port type processed earlier in
the same call (the input type) may already have been updated. -/
theorem claimC1_amended (m : NodeModel) (pt : PortType) (s : NodeState) :
    (m.num_ports pt < (s.portsOf pt).length →
      m.num_ports pt < (gatherConnections (s.portsOf pt)).length →
      updatePortsFor m pt s = .error ("Gathered too many ports to reconnect", s))
    ∧ (∀ msg s', updatePortsFor m pt s = .error (msg, s') → s' = s)
    ∧ (∀ e, update_ports m s = .error e → e.2.outputPorts = s.outputPorts) := by
  refine ⟨fun h1 h2 => updatePortsFor_shrink_error m pt s h1 h2, ?_, ?_⟩
  · intro msg s' h
    exact (updatePortsFor_error_spec m pt s msg s' h).1
  · intro e h
    rcases update_ports_error_cases m s e h with h1 | ⟨s1, h1, h2⟩
    · have := (updatePortsFor_error_spec m .input s e.1 e.2 h1).1
      rw [this]
    · have hs1 : e.2 = s1 := (updatePortsFor_error_spec m .output s1 e.1 e.2 h2).1
      rw [hs1]
      exact updatePortsFor_ok_other m .input s s1 h1 .output (by decide)

/-- C1 amended-claim witness at the fixture's output type. -/
theorem claimC1_amended_witness :
    exC1model.num_ports .output < (exC1state.portsOf .output).length
    ∧ updatePortsFor exC1model .output exC1state =
        .error ("Gathered too many ports to reconnect", exC1state) :=
  ⟨by decide, (claimC1_amended exC1model .output exC1state).1 (by decide) (by decide)⟩

end ClaimC1

section ClaimC3

/-- C3: growing a port type's collection is append-only: every entry at
an index that existed before the call is the identical `Port` object
(same identity, same connection list), and the new entries are exactly
fresh, connection-free ports at the missing indices. -/
theorem claimC3_grow_append (m : NodeModel) (pt : PortType) (s s' : NodeState)
    (hpt : pt ≠ PortType.none)
    (hc : keysContiguous (s.portsOf pt))
    (hgrow : (s.portsOf pt).length < m.num_ports pt)
    (hok : updatePortsFor m pt s = .ok s') :
    s'.portsOf pt = s.portsOf pt ++
      (List.range' (s.portsOf pt).length (m.num_ports pt - (s.portsOf pt).length)).map
        (fun i => (i, ⟨s.nextPid + (i - (s.portsOf pt).length), pt, i, []⟩))
    ∧ (∀ i, i < (s.portsOf pt).length → (s'.portsOf pt)[i]? = (s.portsOf pt)[i]?) := by
  rcases hg : growPorts pt (m.num_ports pt) (s.portsOf pt) s.nextPid with ⟨p2, n2⟩
  rw [updatePortsFor_grow_eq m pt s p2 n2 hgrow hg] at hok
  rw [Except.ok.injEq] at hok
  have hga := growPorts_eq_append pt (s.portsOf pt) s.nextPid hc (m.num_ports pt)
    (Nat.le_of_lt hgrow)
  rw [hg] at hga
  have hp2 := congrArg Prod.fst hga
  simp only at hp2
  have hports : s'.portsOf pt = s.portsOf pt ++
      (List.range' (s.portsOf pt).length (m.num_ports pt - (s.portsOf pt).length)).map
        (fun i => (i, ⟨s.nextPid + (i - (s.portsOf pt).length), pt, i, []⟩)) := by
    rw [← hok, portsOf_withNextPid, portsOf_setPortsOf_self s pt p2 hpt]
    exact hp2
  refine ⟨hports, fun i hi => ?_⟩
  rw [hports, List.getElem?_append, if_pos hi]

/-- Fixture for C3: output collection grows from 2 ports (one connected)
to 4. -/
def exC3model : NodeModel :=
  ⟨fun pt => match pt with | .input => 0 | .output => 4 | .none => 0⟩

def exC3state : NodeState :=
  { inputPorts := []
    outputPorts := [(0, ⟨0, .output, 0, [20]⟩), (1, ⟨1, .output, 1, []⟩)]
    conns := [(20, ⟨some 9, some 0⟩)]
    nextPid := 2 }

def exC3state' : NodeState :=
  { inputPorts := []
    outputPorts := [(0, ⟨0, .output, 0, [20]⟩), (1, ⟨1, .output, 1, []⟩),
      (2, ⟨2, .output, 2, []⟩), (3, ⟨3, .output, 3, []⟩)]
    conns := [(20, ⟨some 9, some 0⟩)]
    nextPid := 4 }

/-- C3 witness: the connected output port at index 0 survives growth as
the identical object. -/
theorem claimC3_witness :
    keysContiguous (exC3state.portsOf .output)
    ∧ (exC3state.portsOf .output).length < exC3model.num_ports .output
    ∧ (exC3state'.portsOf .output)[0]? = (exC3state.portsOf .output)[0]? :=
  ⟨by decide, by decide,
    (claimC3_grow_append exC3model .output exC3state exC3state'
      (by decide) (by decide) (by decide) rfl).2 0 (by decide)⟩

end ClaimC3

section ClaimC4

/-- C4: reconciliation is idempotent: if `_update_ports` succeeds on a
well-formed state, running it again (with the model still reporting the
same counts) returns the very same state — the second call is a no-op. -/
theorem claimC4_idempotent (m : NodeModel) (s s' : NodeState)
    (hwf : WF s) (hok : update_ports m s = .ok s') :
    update_ports m s' = .ok s' := by
  obtain ⟨⟨hci, hco⟩, _⟩ := update_ports_ok_spec m s s' hwf hok
  have hi : m.num_ports .input = (s'.portsOf .input).length := by
    have hlen := congrArg List.length hci
    rw [List.length_map, List.length_range] at hlen
    exact hlen.symm
  have ho : m.num_ports .output = (s'.portsOf .output).length := by
    have hlen := congrArg List.length hco
    rw [List.length_map, List.length_range] at hlen
    exact hlen.symm
  unfold update_ports
  rw [updatePortsFor_eq_count m .input s' hi, except_bind_ok]
  exact updatePortsFor_eq_count m .output s' ho

/-- Fixture for C4: a successful shrink (3 output ports, two connected,
down to 2). -/
def exC4model : NodeModel :=
  ⟨fun pt => match pt with | .input => 1 | .output => 2 | .none => 0⟩

def exC4state : NodeState :=
  { inputPorts := [(0, ⟨0, .input, 0, []⟩)]
    outputPorts := [(0, ⟨1, .output, 0, [10]⟩), (1, ⟨2, .output, 1, []⟩),
      (2, ⟨3, .output, 2, [11]⟩)]
    conns := [(10, ⟨some 100, some 1⟩), (11, ⟨some 100, some 3⟩)]
    nextPid := 4 }

def exC4state' : NodeState :=
  { inputPorts := [(0, ⟨0, .input, 0, []⟩)]
    outputPorts := [(0, ⟨4, .output, 0, [10]⟩), (1, ⟨5, .output, 1, [11]⟩)]
    conns := [(10, ⟨some 100, some 4⟩), (11, ⟨some 100, some 5⟩)]
    nextPid := 6 }

/-- C4 witness: after the fixture's shrink settles, a second
reconciliation returns the state unchanged. -/
theorem claimC4_witness :
    WF exC4state
    ∧ update_ports exC4model exC4state = .ok exC4state'
    ∧ update_ports exC4model exC4state' = .ok exC4state' :=
  ⟨by decide, rfl, claimC4_idempotent exC4model exC4state exC4state' (by decide) rfl⟩

end ClaimC4

section ClaimC5

lemma map_fst_entry_update (l : List (Nat × Port)) (idx cid : Nat) :
    (l.map fun e => if e.1 = idx then (e.1, e.2.remove_connection cid) else e).map Prod.fst
      = l.map Prod.fst := by
  rw [List.map_map]
  refine List.map_congr_left ?_
  intro e _
  by_cases h : e.1 = idx <;> simp [h]

/-- C5: after every public `NodeState` port-collection operation returns
successfully, the key set of each port type is exactly the contiguous
range `0 .. num_ports-1` as currently reported by the model — callers
never observe a stale or gapped index set. -/
theorem claimC5_contiguous (m : NodeModel) (s : NodeState) (hwf : WF s) :
    (∀ key v s2, getitem m s key = .ok (v, s2) → contiguousWith m s2)
    ∧ (∀ pt idx v s2, connections m s pt idx = .ok (v, s2) → contiguousWith m s2)
    ∧ (∀ pt v s2, connectionsOfType m s pt = .ok (v, s2) → contiguousWith m s2)
    ∧ (∀ pt idx cid s2, erase_connection m s pt idx cid = .ok s2 → contiguousWith m s2) := by
  refine ⟨?_, ?_, ?_, ?_⟩
  · intro key v s2 h
    unfold getitem at h
    rcases hu : update_ports m s with e | s1 <;> rw [hu] at h
    · rw [except_bind_error] at h; cases h
    · rw [except_bind_ok, Except.ok.injEq, Prod.mk.injEq] at h
      rw [← h.2]
      exact (update_ports_ok_spec m s s1 hwf hu).1
  · intro pt idx v s2 h
    unfold connections at h
    rcases hu : update_ports m s with e | s1 <;> rw [hu] at h
    · rw [except_bind_error] at h; cases h
    · rw [except_bind_ok] at h
      rcases hl : List.lookup idx (s1.portsOf pt) with _ | p <;> rw [hl] at h
      · cases h
      · rw [Except.ok.injEq, Prod.mk.injEq] at h
        rw [← h.2]
        exact (update_ports_ok_spec m s s1 hwf hu).1
  · intro pt v s2 h
    unfold connectionsOfType at h
    rcases hu : update_ports m s with e | s1 <;> rw [hu] at h
    · rw [except_bind_error] at h; cases h
    · rw [except_bind_ok, Except.ok.injEq, Prod.mk.injEq] at h
      rw [← h.2]
      exact (update_ports_ok_spec m s s1 hwf hu).1
  · intro pt idx cid s2 h
    unfold erase_connection at h
    rcases hu : update_ports m s with e | s1 <;> rw [hu] at h
    · rw [except_bind_error] at h; cases h
    · rw [except_bind_ok] at h
      rcases hl : List.lookup idx (s1.portsOf pt) with _ | p <;> rw [hl] at h
      · cases h
      · rw [Except.ok.injEq] at h
        have hcont := (update_ports_ok_spec m s s1 hwf hu).1
        rw [← h]
        cases pt with
        | none =>
            exact absurd hl (by simp [NodeState.portsOf, List.lookup])
        | input =>
            exact ⟨(map_fst_entry_update s1.inputPorts idx cid).trans hcont.1, hcont.2⟩
        | output =>
            exact ⟨hcont.1, (map_fst_entry_update s1.outputPorts idx cid).trans hcont.2⟩

/-- Fixture for C5: input unchanged, output grows from 1 to 2. -/
def exC5model : NodeModel :=
  ⟨fun pt => match pt with | .input => 1 | .output => 2 | .none => 0⟩

def exC5state : NodeState :=
  { inputPorts := [(0, ⟨0, .input, 0, []⟩)]
    outputPorts := [(0, ⟨1, .output, 0, [30]⟩)]
    conns := [(30, ⟨some 50, some 1⟩)]
    nextPid := 2 }

def exC5state' : NodeState :=
  { inputPorts := [(0, ⟨0, .input, 0, []⟩)]
    outputPorts := [(0, ⟨1, .output, 0, [30]⟩), (1, ⟨2, .output, 1, []⟩)]
    conns := [(30, ⟨some 50, some 1⟩)]
    nextPid := 3 }

/-- C5 witness: indexed access on the fixture reconciles the output
collection to exactly the keys 0 and 1. -/
theorem claimC5_witness :
    WF exC5state ∧ contiguousWith exC5model exC5state' :=
  ⟨by decide,
    (claimC5_contiguous exC5model exC5state (by decide)).1 .output
      (exC5state'.portsOf .output) exC5state' rfl⟩

end ClaimC5

section ClaimC2

/-- C2: a legal shrink (gathered non-empty ports ≤ new count) rebuilds
fresh ports `0 .. new_count-1` and re-attaches the gathered connection
lists in original relative order — the list gathered k-th goes to new
port k, whose identity is fresh (`nextPid + k`) — repointing each moved
connection's endpoint for that port type at the new port's identity; and
on a contiguous dict the k-th gathered list is the one from the k-th
lowest non-empty old index. -/
theorem claimC2_shrink_reattach (m : NodeModel) (pt : PortType) (s s' : NodeState)
    (hpt : pt ≠ PortType.none)
    (hshrink : m.num_ports pt < (s.portsOf pt).length)
    (hfit : (gatherConnections (s.portsOf pt)).length ≤ m.num_ports pt)
    (hok : updatePortsFor m pt s = .ok s') :
    (∀ k, k < m.num_ports pt →
      (s'.portsOf pt)[k]? = some (k, ⟨s.nextPid + k, pt, k,
        ((gatherConnections (s.portsOf pt)).map (·.2)).getD k []⟩))
    ∧ (∀ k cid, k < (gatherConnections (s.portsOf pt)).length →
        cid ∈ ((gatherConnections (s.portsOf pt)).map (·.2)).getD k [] →
        (((gatherConnections (s.portsOf pt)).map (·.2)).flatten).Nodup →
        List.lookup cid s'.conns
          = (List.lookup cid s.conns).map (fun c => c.setEndpoint pt (s.nextPid + k)))
    ∧ (keysContiguous (s.portsOf pt) →
        List.Pairwise (· < ·) ((gatherConnections (s.portsOf pt)).map Prod.fst)) := by
  rcases hre : reattachAll pt (freshPorts pt (m.num_ports pt) s.nextPid)
      ((gatherConnections (s.portsOf pt)).map (·.2)) s.conns with ⟨p2, a2⟩
  rw [updatePortsFor_shrink_ok m pt s p2 a2 hshrink hfit hre] at hok
  rw [Except.ok.injEq] at hok
  have hports : s'.portsOf pt = p2 := by
    rw [← hok, portsOf_withConns, portsOf_setPortsOf_self s pt p2 hpt]
  have hconns : s'.conns = a2 := by
    rw [← hok]
  refine ⟨?_, ?_, fun hc => gatherConnections_keys_sorted _ hc⟩
  · intro k hk
    have hfget := reattachAll_fst_getElem pt (freshPorts pt (m.num_ports pt) s.nextPid)
      ((gatherConnections (s.portsOf pt)).map (·.2)) s.conns k
    rw [hre] at hfget
    rw [hports, hfget, freshPorts_getElem pt (m.num_ports pt) s.nextPid k hk]
    simp
  · intro k cid hk hmem hnodup
    have hsnd := reattachAll_snd pt (freshPorts pt (m.num_ports pt) s.nextPid)
      ((gatherConnections (s.portsOf pt)).map (·.2)) s.conns
    rw [hre] at hsnd
    have hsnd2 : a2 = applyEndpointUpdates pt
        (flatPairs (freshPorts pt (m.num_ports pt) s.nextPid)
          ((gatherConnections (s.portsOf pt)).map (·.2))) s.conns := hsnd
    rw [hconns, hsnd2]
    have hklt : k < ((gatherConnections (s.portsOf pt)).map (·.2)).length := by
      rw [List.length_map]; exact hk
    have hkfresh : k < m.num_ports pt := Nat.lt_of_lt_of_le hk hfit
    have hfp : (freshPorts pt (m.num_ports pt) s.nextPid)[k]?
        = some (k, ⟨s.nextPid + k, pt, k, []⟩) :=
      freshPorts_getElem pt (m.num_ports pt) s.nextPid k hkfresh
    have hpair : (cid, s.nextPid + k) ∈ flatPairs (freshPorts pt (m.num_ports pt) s.nextPid)
        ((gatherConnections (s.portsOf pt)).map (·.2)) :=
      flatPairs_mem _ _ k cid hklt (k, ⟨s.nextPid + k, pt, k, []⟩) hfp hmem
    have hkeys : (flatPairs (freshPorts pt (m.num_ports pt) s.nextPid)
        ((gatherConnections (s.portsOf pt)).map (·.2))).map Prod.fst
        = (((gatherConnections (s.portsOf pt)).map (·.2))).flatten := by
      refine flatPairs_keys _ _ ?_
      rw [List.length_map, freshPorts_length]
      exact hfit
    exact lookup_applyAll_mem pt _ cid (s.nextPid + k) hpair (hkeys ▸ hnodup) s.conns

/-- Fixture for C2: output shrinks from 3 ports (indices 0 and 2
connected) to 2; the two gathered lists go to new ports 0 and 1. -/
def exC2model : NodeModel :=
  ⟨fun pt => match pt with | .input => 1 | .output => 2 | .none => 0⟩

def exC2state : NodeState :=
  { inputPorts := [(0, ⟨0, .input, 0, []⟩)]
    outputPorts := [(0, ⟨1, .output, 0, [10]⟩), (1, ⟨2, .output, 1, []⟩),
      (2, ⟨3, .output, 2, [11]⟩)]
    conns := [(10, ⟨some 100, some 1⟩), (11, ⟨some 100, some 3⟩)]
    nextPid := 4 }

def exC2state' : NodeState :=
  { inputPorts := [(0, ⟨0, .input, 0, []⟩)]
    outputPorts := [(0, ⟨4, .output, 0, [10]⟩), (1, ⟨5, .output, 1, [11]⟩)]
    conns := [(10, ⟨some 100, some 4⟩), (11, ⟨some 100, some 5⟩)]
    nextPid := 6 }

/-- C2 witness: in the fixture, new port 1 (fresh identity 5) receives
the list gathered from old index 2, and connection 11's output endpoint
is repointed at it. -/
theorem claimC2_witness :
    exC2model.num_ports .output < (exC2state.portsOf .output).length
    ∧ (exC2state'.portsOf .output)[1]? = some (1, ⟨5, .output, 1, [11]⟩)
    ∧ List.lookup 11 exC2state'.conns = some ⟨some 100, some 5⟩ := by
  refine ⟨by decide, ?_, ?_⟩
  · have h := (claimC2_shrink_reattach exC2model .output exC2state exC2state'
      (by decide) (by decide) (by decide) rfl).1 1 (by decide)
    rw [h]
    decide
  · have h := (claimC2_shrink_reattach exC2model .output exC2state exC2state'
      (by decide) (by decide) (by decide) rfl).2.1 1 11 (by decide) (by decide) (by decide)
    rw [h]
    decide

end ClaimC2

/-! Embedding of `node_geometry.py`.  Pixel quantities that Python keeps
as `int` stay `Int`; coordinates produced with float division become `ℚ`.
A `QFontMetrics` value is modelled as an opaque token (`FontMetrics`)
whose measurements are read off a `MetricsTable`; `QFontMetrics`
equality (`==`) is equality of tokens, and a `QFont` determines both its
plain and its bold-variant metrics token, so equal tokens give equal
measurements. -/

/-- Layout direction enum from `style.py`. -/
inductive LayoutDirection
| HORIZONTAL
| VERTICAL
deriving DecidableEq, Repr

/-- Node validation state enum from `enums.py`. -/
inductive NodeValidationState
| valid
| warning
| error
deriving DecidableEq, Repr

/-- A `QFontMetrics` value (opaque token; `==` compares tokens). -/
structure FontMetrics where
  fmId : Nat
deriving DecidableEq, Repr

/-- Measurements of a `QFontMetrics` value: `height()`,
`horizontalAdvance(text)` and the `boundingRect(text)` width/height. -/
structure MetricsTable where
  metricsHeight : FontMetrics → Int
  horizontalAdvance : FontMetrics → String → Int
  boundingRectWidth : FontMetrics → String → Int
  boundingRectHeight : FontMetrics → String → Int

/-- A `QFont`, abstracted by the metrics of itself (`QFontMetrics(f)`)
and of its bold variant (`QFontMetrics(bold f)`). -/
structure Font where
  metrics : FontMetrics
  boldMetrics : FontMetrics
deriving DecidableEq, Repr

/-- Embedded widget size, as consumed by `recalculate_size`. -/
structure Widget where
  width : Int
  height : Int
deriving DecidableEq, Repr

/-- The node model as consumed by `NodeGeometry`.  `display_text` lists
the display texts of the node's reconciled ports of a type, in index
order (`Port.display_text` itself lives in `port.py`, which is not under
`src/`; the list stands for those labels). -/
structure GNodeModel where
  num_ports : PortType → Nat
  caption : String
  caption_visible : Bool
  validation_state : NodeValidationState
  validation_message : String
  embedded_widget : Option Widget
  display_text : PortType → List String

/-- The node style fields consumed by `NodeGeometry`. -/
structure NodeStyle where
  layout_direction : LayoutDirection
  connection_point_diameter : ℚ
deriving DecidableEq, Repr

/-- The mutable layout cache of `NodeGeometry`. -/
structure NodeGeometry where
  width : Int
  height : Int
  entry_width : Int
  entry_height : Int
  spacing : Int
  input_port_width : Int
  output_port_width : Int
  font_metrics : FontMetrics
  bold_font_metrics : FontMetrics
deriving DecidableEq, Repr

/-- `NodeGeometry.caption_height`. -/
def caption_height (tbl : MetricsTable) (m : GNodeModel) (g : NodeGeometry) : Int :=
  if ¬ m.caption_visible then 0
  else tbl.boundingRectHeight g.bold_font_metrics m.caption

/-- `NodeGeometry.caption_width`. -/
def caption_width (tbl : MetricsTable) (m : GNodeModel) (g : NodeGeometry) : Int :=
  if ¬ m.caption_visible then 0
  else tbl.boundingRectWidth g.bold_font_metrics m.caption

/-- `NodeGeometry.validation_height`. -/
def validation_height (tbl : MetricsTable) (m : GNodeModel) (g : NodeGeometry) : Int :=
  tbl.boundingRectHeight g.bold_font_metrics m.validation_message

/-- `NodeGeometry.validation_width`. -/
def validation_width (tbl : MetricsTable) (m : GNodeModel) (g : NodeGeometry) : Int :=
  tbl.boundingRectWidth g.bold_font_metrics m.validation_message

/-- `NodeGeometry.port_width`: 0 for no ports, else the maximum
horizontal advance of the port display texts under the stored (plain)
font metrics. -/
def port_width (tbl : MetricsTable) (m : GNodeModel) (g : NodeGeometry)
    (pt : PortType) : Int :=
  match m.display_text pt with
  | [] => 0
  | n :: rest => (rest.map (tbl.horizontalAdvance g.font_metrics)).foldl max
      (tbl.horizontalAdvance g.font_metrics n)

/-- The body of `recalculate_size` after the early-return check: the
unconditional recomputation of entry height, port widths, width and
height from the model, style and stored metrics. -/
def recalcCore (tbl : MetricsTable) (m : GNodeModel) (style : NodeStyle)
    (g : NodeGeometry) : NodeGeometry :=
  let max_num_of_entries : Int := (max (m.num_ports .input) (m.num_ports .output) : Nat)
  let widget := m.embedded_widget
  let entry_height := tbl.metricsHeight g.font_metrics
  let port_height := entry_height + g.spacing
  let g1 := { g with entry_height := entry_height }
  let input_port_width := port_width tbl m g1 .input
  let output_port_width := port_width tbl m g1 .output
  let hw : Int × Int :=
    match style.layout_direction with
    | .HORIZONTAL =>
        (port_height * max_num_of_entries,
         input_port_width + output_port_width + 2 * g.spacing)
    | .VERTICAL =>
        (port_height * 2,
         max input_port_width output_port_width * max_num_of_entries + 2 * g.spacing)
  let height := match widget with
    | some w => max hw.1 w.height
    | Option.none => hw.1
  let height := height + caption_height tbl m g
  let width := match widget with
    | some w => hw.2 + w.width
    | Option.none => hw.2
  let width := max width (caption_width tbl m g)
  let wh : Int × Int :=
    if m.validation_state ≠ NodeValidationState.valid then
      (max width (validation_width tbl m g),
       height + validation_height tbl m g + g.spacing)
    else (width, height)
  { g1 with
      width := wh.1
      height := wh.2
      input_port_width := input_port_width
      output_port_width := output_port_width }

/-- `NodeGeometry.recalculate_size(font)`: with an explicit font, first
compare the bold-variant metrics of that font against the stored bold
metrics and return immediately when they are equal; otherwise store both
new metrics objects and recompute.  With no font, recompute
unconditionally. -/
def recalculate_size (tbl : MetricsTable) (m : GNodeModel) (style : NodeStyle)
    (g : NodeGeometry) (font : Option Font) : NodeGeometry :=
  match font with
  | Option.none => recalcCore tbl m style g
  | some f =>
      if g.bold_font_metrics = f.boldMetrics then g
      else recalcCore tbl m style
        { g with font_metrics := f.metrics, bold_font_metrics := f.boldMetrics }

/-- An affine `QTransform` (`map` applies it to a point: Qt maps
`(x, y)` to `(m11·x + m21·y + dx, m12·x + m22·y + dy)`). -/
structure Transform where
  m11 : ℚ
  m12 : ℚ
  m21 : ℚ
  m22 : ℚ
  dx : ℚ
  dy : ℚ
deriving DecidableEq, Repr

def Transform.map (t : Transform) (p : ℚ × ℚ) : ℚ × ℚ :=
  (t.m11 * p.1 + t.m21 * p.2 + t.dx, t.m12 * p.1 + t.m22 * p.2 + t.dy)

/-- `QTransform()`, the identity. -/
def Transform.identity : Transform := ⟨1, 0, 0, 1, 0, 0⟩

/-- `NodeGeometry._calc_horizontal_port_position`. -/
def _calc_horizontal_port_position (tbl : MetricsTable) (m : GNodeModel)
    (style : NodeStyle) (g : NodeGeometry) (pt : PortType) (index : Nat) :
    Except String (ℚ × ℚ) :=
  let step : ℚ := (g.entry_height : ℚ) + (g.spacing : ℚ)
  let total_height : ℚ := ((caption_height tbl m g : Int) : ℚ) + step * index + step / 2
  match pt with
  | .output => .ok ((g.width : ℚ) + style.connection_point_diameter, total_height)
  | .input => .ok (-style.connection_point_diameter, total_height)
  | .none => .error "ValueError"

/-- `NodeGeometry._calc_vertical_port_position`. -/
def _calc_vertical_port_position (m : GNodeModel) (style : NodeStyle)
    (g : NodeGeometry) (pt : PortType) (index : Nat) : Except String (ℚ × ℚ) :=
  let total_num_ports := m.num_ports pt
  let x : ℚ := (g.width : ℚ) / ((total_num_ports : ℚ) + 1) * ((index : ℚ) + 1)
  match pt with
  | .output => .ok (x, (g.height : ℚ) + style.connection_point_diameter)
  | .input => .ok (x, -style.connection_point_diameter)
  | .none => .error "ValueError"

/-- `NodeGeometry.port_scene_position(port_type, index, t)`: dispatch on
the style's layout direction, then pass the point through the
caller-supplied transform (`QTransform()`, the identity, when absent). -/
def port_scene_position (tbl : MetricsTable) (m : GNodeModel) (style : NodeStyle)
    (g : NodeGeometry) (pt : PortType) (index : Nat) (t : Option Transform) :
    Except String (ℚ × ℚ) :=
  let t := t.getD Transform.identity
  match style.layout_direction with
  | .HORIZONTAL => (_calc_horizontal_port_position tbl m style g pt index).map t.map
  | .VERTICAL => (_calc_vertical_port_position m style g pt index).map t.map

/-- Squared euclidean distance between two points. -/
def dist2 (p q : ℚ × ℚ) : ℚ := (p.1 - q.1) ^ 2 + (p.2 - q.2) ^ 2

/-- The scan loop of `check_hit_scene_point`: walk the ports in
iteration order, stop at the first whose position is within the
tolerance radius of the scene point.  The source compares
`sqrt(dist2) < tolerance`; for the nonnegative tolerance this is
equivalent to the squared comparison used here (`sqrt_lt_iff_sq`). -/
def hitLoop (tol : ℚ) (mappedPos : Port → ℚ × ℚ) (sp : ℚ × ℚ) :
    List (Nat × Port) → Option Port
  | [] => Option.none
  | e :: rest =>
      if dist2 (mappedPos e.2) sp < tol ^ 2 then some e.2
      else hitLoop tol mappedPos sp rest

/-- `NodeGeometry.check_hit_scene_point(port_type, scene_point,
scene_transform)`.  `ports` is the reconciled
`self._node.state[port_type]` collection in iteration order, and
`mappedPos` stands for `port.get_mapped_scene_position(scene_transform)`
(`port.py` is not under `src/`). -/
def check_hit_scene_point (style : NodeStyle) (ports : List (Nat × Port))
    (mappedPos : Port → ℚ × ℚ) (scene_point : ℚ × ℚ) (pt : PortType) : Option Port :=
  if pt = PortType.none then Option.none
  else
    let tolerance := 2 * style.connection_point_diameter
    hitLoop tolerance mappedPos scene_point ports

/-- Justification for embedding the source's
`sqrt(dot(pos, pos)) < tolerance` as a squared comparison: over the
reals the two tests agree whenever the tolerance is nonnegative. -/
lemma sqrt_lt_iff_sq (d t : ℝ) (hd : 0 ≤ d) (ht : 0 ≤ t) :
    Real.sqrt d < t ↔ d < t ^ 2 := by
  rcases eq_or_lt_of_le ht with heq | hlt
  · constructor
    · intro h
      exact absurd h (not_lt.mpr (heq ▸ Real.sqrt_nonneg d))
    · intro h
      exact absurd h (not_lt.mpr (by nlinarith))
  · exact Real.sqrt_lt' hlt

section ClaimC6

/-- C6: under vertical layout with the identity transform,
`port_scene_position` places a port at
`x = width × (index+1) / (count+1)` with `count` the model's reported
port count for that type, `y = −pointDiameter` for inputs and
`y = height + pointDiameter` for outputs. -/
theorem claimC6_vertical_positions (tbl : MetricsTable) (m : GNodeModel)
    (style : NodeStyle) (g : NodeGeometry)
    (hl : style.layout_direction = .VERTICAL) (idx : Nat) :
    port_scene_position tbl m style g .input idx (some Transform.identity)
      = .ok ((g.width : ℚ) * ((idx : ℚ) + 1) / ((m.num_ports .input : ℚ) + 1),
          -style.connection_point_diameter)
    ∧ port_scene_position tbl m style g .output idx (some Transform.identity)
      = .ok ((g.width : ℚ) * ((idx : ℚ) + 1) / ((m.num_ports .output : ℚ) + 1),
          (g.height : ℚ) + style.connection_point_diameter) := by
  constructor
  · simp only [port_scene_position, hl, _calc_vertical_port_position, Option.getD_some,
      Except.map, Transform.map, Transform.identity]
    rw [Except.ok.injEq, Prod.mk.injEq]
    constructor <;> ring
  · simp only [port_scene_position, hl, _calc_vertical_port_position, Option.getD_some,
      Except.map, Transform.map, Transform.identity]
    rw [Except.ok.injEq, Prod.mk.injEq]
    constructor <;> ring

/-- Fixture for C6: the spec scenario — width 100, one input, two
outputs, vertical layout, point diameter 8, height 150. -/
def exC6tbl : MetricsTable := ⟨fun _ => 20, fun _ _ => 10, fun _ _ => 10, fun _ _ => 10⟩

def exC6model : GNodeModel :=
  ⟨fun pt => match pt with | .input => 1 | .output => 2 | .none => 0,
   "n", true, .valid, "", Option.none, fun _ => []⟩

def exC6style : NodeStyle := ⟨.VERTICAL, 8⟩

def exC6geom : NodeGeometry := ⟨100, 150, 0, 20, 20, 70, 70, ⟨0⟩, ⟨1⟩⟩

/-- C6 witness: the two outputs land at x = 100/3 and x = 200/3, the
input at x = 50. -/
theorem claimC6_witness :
    port_scene_position exC6tbl exC6model exC6style exC6geom .output 0
        (some Transform.identity) = .ok (100 / 3, 158)
    ∧ port_scene_position exC6tbl exC6model exC6style exC6geom .output 1
        (some Transform.identity) = .ok (200 / 3, 158)
    ∧ port_scene_position exC6tbl exC6model exC6style exC6geom .input 0
        (some Transform.identity) = .ok (50, -8) := by
  refine ⟨?_, ?_, ?_⟩
  · rw [(claimC6_vertical_positions exC6tbl exC6model exC6style exC6geom rfl 0).2]
    rw [Except.ok.injEq, Prod.mk.injEq]
    norm_num [exC6geom, exC6model, exC6style]
  · rw [(claimC6_vertical_positions exC6tbl exC6model exC6style exC6geom rfl 1).2]
    rw [Except.ok.injEq, Prod.mk.injEq]
    norm_num [exC6geom, exC6model, exC6style]
  · rw [(claimC6_vertical_positions exC6tbl exC6model exC6style exC6geom rfl 0).1]
    rw [Except.ok.injEq, Prod.mk.injEq]
    norm_num [exC6geom, exC6model, exC6style]

end ClaimC6

section ClaimC7

/-- C7: under horizontal layout with the identity transform, the x
coordinate is `−pointDiameter` for inputs and `width + pointDiameter`
for outputs independent of the index, the y coordinate is the caption
height plus `(entry_height + spacing) × index` plus half a step, and —
whenever that step is positive — y strictly increases with the index. -/
theorem claimC7_horizontal_positions (tbl : MetricsTable) (m : GNodeModel)
    (style : NodeStyle) (g : NodeGeometry)
    (hl : style.layout_direction = .HORIZONTAL) :
    (∀ idx : Nat,
      port_scene_position tbl m style g .input idx (some Transform.identity)
        = .ok (-style.connection_point_diameter,
            ((caption_height tbl m g : Int) : ℚ)
              + ((g.entry_height : ℚ) + (g.spacing : ℚ)) * idx
              + ((g.entry_height : ℚ) + (g.spacing : ℚ)) / 2))
    ∧ (∀ idx : Nat,
      port_scene_position tbl m style g .output idx (some Transform.identity)
        = .ok ((g.width : ℚ) + style.connection_point_diameter,
            ((caption_height tbl m g : Int) : ℚ)
              + ((g.entry_height : ℚ) + (g.spacing : ℚ)) * idx
              + ((g.entry_height : ℚ) + (g.spacing : ℚ)) / 2))
    ∧ (0 < (g.entry_height : ℚ) + (g.spacing : ℚ) → ∀ i j : Nat, i < j →
        ((caption_height tbl m g : Int) : ℚ)
            + ((g.entry_height : ℚ) + (g.spacing : ℚ)) * i
            + ((g.entry_height : ℚ) + (g.spacing : ℚ)) / 2
          < ((caption_height tbl m g : Int) : ℚ)
            + ((g.entry_height : ℚ) + (g.spacing : ℚ)) * j
            + ((g.entry_height : ℚ) + (g.spacing : ℚ)) / 2) := by
  refine ⟨?_, ?_, ?_⟩
  · intro idx
    simp only [port_scene_position, hl, _calc_horizontal_port_position, Option.getD_some,
      Except.map, Transform.map, Transform.identity]
    rw [Except.ok.injEq, Prod.mk.injEq]
    constructor <;> ring
  · intro idx
    simp only [port_scene_position, hl, _calc_horizontal_port_position, Option.getD_some,
      Except.map, Transform.map, Transform.identity]
    rw [Except.ok.injEq, Prod.mk.injEq]
    constructor <;> ring
  · intro hstep i j hij
    have hcast : (i : ℚ) < (j : ℚ) := by exact_mod_cast hij
    have := mul_lt_mul_of_pos_left hcast hstep
    linarith

/-- Fixture for C7: horizontal layout, entry height 20, spacing 20,
caption bounding-rect height 10, point diameter 8, width 100. -/
def exC7tbl : MetricsTable := ⟨fun _ => 20, fun _ _ => 10, fun _ _ => 10, fun _ _ => 10⟩

def exC7model : GNodeModel :=
  ⟨fun pt => match pt with | .input => 2 | .output => 2 | .none => 0,
   "n", true, .valid, "", Option.none, fun _ => []⟩

def exC7style : NodeStyle := ⟨.HORIZONTAL, 8⟩

def exC7geom : NodeGeometry := ⟨100, 150, 0, 20, 20, 70, 70, ⟨0⟩, ⟨1⟩⟩

/-- C7 witness: the first two input ports sit at x = −8, y = 30 and 70,
and y strictly increases from index 0 to 1. -/
theorem claimC7_witness :
    port_scene_position exC7tbl exC7model exC7style exC7geom .input 0
        (some Transform.identity) = .ok (-8, 30)
    ∧ port_scene_position exC7tbl exC7model exC7style exC7geom .output 1
        (some Transform.identity) = .ok (108, 70)
    ∧ ((caption_height exC7tbl exC7model exC7geom : Int) : ℚ)
          + ((exC7geom.entry_height : ℚ) + (exC7geom.spacing : ℚ)) * (0 : Nat)
          + ((exC7geom.entry_height : ℚ) + (exC7geom.spacing : ℚ)) / 2
        < ((caption_height exC7tbl exC7model exC7geom : Int) : ℚ)
          + ((exC7geom.entry_height : ℚ) + (exC7geom.spacing : ℚ)) * (1 : Nat)
          + ((exC7geom.entry_height : ℚ) + (exC7geom.spacing : ℚ)) / 2 := by
  refine ⟨?_, ?_, ?_⟩
  · rw [(claimC7_horizontal_positions exC7tbl exC7model exC7style exC7geom rfl).1 0]
    rw [Except.ok.injEq, Prod.mk.injEq]
    norm_num [exC7geom, exC7model, exC7tbl, exC7style, caption_height]
  · rw [(claimC7_horizontal_positions exC7tbl exC7model exC7style exC7geom rfl).2.1 1]
    rw [Except.ok.injEq, Prod.mk.injEq]
    norm_num [exC7geom, exC7model, exC7tbl, exC7style, caption_height]
  · exact (claimC7_horizontal_positions exC7tbl exC7model exC7style exC7geom rfl).2.2
      (by norm_num [exC7geom]) 0 1 (by norm_num)

end ClaimC7

section ClaimC10

/-- C10: when `recalculate_size` is called with an explicit font whose
bold-variant metrics compare equal to the stored bold metrics, it
returns immediately: the whole geometry — width, height, entry height,
port widths, and the stored plain font metrics — is left unchanged,
whatever the model, style or metric measurements currently are. -/
theorem claimC10_early_return (tbl : MetricsTable) (m : GNodeModel) (style : NodeStyle)
    (g : NodeGeometry) (f : Font) (h : f.boldMetrics = g.bold_font_metrics) :
    recalculate_size tbl m style g (some f) = g := by
  have hdef : recalculate_size tbl m style g (some f) =
      if g.bold_font_metrics = f.boldMetrics then g
      else recalcCore tbl m style
        { g with font_metrics := f.metrics, bold_font_metrics := f.boldMetrics } := rfl
  rw [hdef, if_pos h.symm]

/-- Fixture for C10: a geometry whose stored bold metrics token equals
the bold metrics of the offered font (while the plain tokens differ and
the model would dictate a very different size). -/
def exC10tbl : MetricsTable := ⟨fun _ => 35, fun _ _ => 90, fun _ _ => 80, fun _ _ => 70⟩

def exC10model : GNodeModel :=
  ⟨fun pt => match pt with | .input => 5 | .output => 7 | .none => 0,
   "caption", true, .error, "bad", some ⟨40, 40⟩, fun _ => ["a", "bb"]⟩

def exC10style : NodeStyle := ⟨.HORIZONTAL, 8⟩

def exC10geom : NodeGeometry := ⟨100, 150, 0, 20, 20, 70, 70, ⟨3⟩, ⟨4⟩⟩

def exC10font : Font := ⟨⟨9⟩, ⟨4⟩⟩

/-- C10 witness: the early return fires on the fixture. -/
theorem claimC10_witness :
    exC10font.boldMetrics = exC10geom.bold_font_metrics
    ∧ recalculate_size exC10tbl exC10model exC10style exC10geom (some exC10font)
        = exC10geom :=
  ⟨by decide,
   claimC10_early_return exC10tbl exC10model exC10style exC10geom exC10font (by decide)⟩

end ClaimC10

section ClaimC8

/-- The hit test applied to one port entry, as a boolean predicate. -/
def hitPred (style : NodeStyle) (mappedPos : Port → ℚ × ℚ) (sp : ℚ × ℚ)
    (e : Nat × Port) : Bool :=
  decide (dist2 (mappedPos e.2) sp < (2 * style.connection_point_diameter) ^ 2)

lemma hitLoop_eq_find (tol : ℚ) (mappedPos : Port → ℚ × ℚ) (sp : ℚ × ℚ)
    (ports : List (Nat × Port)) :
    hitLoop tol mappedPos sp ports
      = (ports.find? (fun e => decide (dist2 (mappedPos e.2) sp < tol ^ 2))).map Prod.snd := by
  induction ports with
  | nil => rfl
  | cons e rest ih =>
      unfold hitLoop
      by_cases h : dist2 (mappedPos e.2) sp < tol ^ 2
      · rw [if_pos h, List.find?_cons_of_pos _ (by simpa using h)]
        rfl
      · rw [if_neg h, List.find?_cons_of_neg _ (by simpa using h)]
        exact ih

lemma hitLoop_first_hit (tol : ℚ) (mappedPos : Port → ℚ × ℚ) (sp : ℚ × ℚ) :
    ∀ (ports : List (Nat × Port)) (k : Nat) (p : Nat × Port), ports[k]? = some p →
      dist2 (mappedPos p.2) sp < tol ^ 2 →
      (∀ (j : Nat) (q : Nat × Port), j < k → ports[j]? = some q →
        ¬ dist2 (mappedPos q.2) sp < tol ^ 2) →
      hitLoop tol mappedPos sp ports = some p.2 := by
  intro ports
  induction ports with
  | nil => intro k p hk; cases hk
  | cons e rest ih =>
      intro k p hk hhit hbefore
      unfold hitLoop
      cases k with
      | zero =>
          rw [List.getElem?_cons_zero, Option.some.injEq] at hk
          rw [hk, if_pos hhit]
      | succ k' =>
          have hhead : ¬ dist2 (mappedPos e.2) sp < tol ^ 2 :=
            hbefore 0 e (Nat.succ_pos k') List.getElem?_cons_zero
          rw [if_neg hhead]
          rw [List.getElem?_cons_succ] at hk
          exact ih k' p hk hhit fun j q hj hq =>
            hbefore (j + 1) q (Nat.succ_lt_succ hj) (by rwa [List.getElem?_cons_succ])

/-- C8: `check_hit_scene_point` scans the given port collection in
iteration (index) order and returns the first — i.e. lowest-index —
port whose mapped position is within the tolerance radius
`2 × connection_point_diameter` of the scene point; it returns `None`
when the port type is `none` or when no port is within tolerance. -/
theorem claimC8_first_hit (style : NodeStyle) (ports : List (Nat × Port))
    (mappedPos : Port → ℚ × ℚ) (sp : ℚ × ℚ) (pt : PortType) :
    (check_hit_scene_point style ports mappedPos sp PortType.none = Option.none)
    ∧ (pt ≠ PortType.none →
        check_hit_scene_point style ports mappedPos sp pt
          = (ports.find? (hitPred style mappedPos sp)).map Prod.snd)
    ∧ (pt ≠ PortType.none →
        (check_hit_scene_point style ports mappedPos sp pt = Option.none ↔
          ∀ e ∈ ports,
            ¬ dist2 (mappedPos e.2) sp < (2 * style.connection_point_diameter) ^ 2))
    ∧ (pt ≠ PortType.none → ∀ (k : Nat) (p : Nat × Port), ports[k]? = some p →
        dist2 (mappedPos p.2) sp < (2 * style.connection_point_diameter) ^ 2 →
        (∀ (j : Nat) (q : Nat × Port), j < k → ports[j]? = some q →
          ¬ dist2 (mappedPos q.2) sp < (2 * style.connection_point_diameter) ^ 2) →
        check_hit_scene_point style ports mappedPos sp pt = some p.2) := by
  have hloop : ∀ (hpt : pt ≠ PortType.none),
      check_hit_scene_point style ports mappedPos sp pt
        = hitLoop (2 * style.connection_point_diameter) mappedPos sp ports := by
    intro hpt
    unfold check_hit_scene_point
    rw [if_neg hpt]
  refine ⟨by unfold check_hit_scene_point; rw [if_pos rfl], ?_, ?_, ?_⟩
  · intro hpt
    rw [hloop hpt, hitLoop_eq_find]
    rfl
  · intro hpt
    rw [hloop hpt, hitLoop_eq_find]
    constructor
    · intro h e he
      have hfind : ports.find?
          (fun e => decide (dist2 (mappedPos e.2) sp
            < (2 * style.connection_point_diameter) ^ 2)) = Option.none := by
        cases hf : ports.find? (fun e => decide (dist2 (mappedPos e.2) sp
            < (2 * style.connection_point_diameter) ^ 2)) with
        | none => rfl
        | some v => rw [hf] at h; cases h
      have := List.find?_eq_none.mp hfind e he
      simpa using this
    · intro h
      rw [List.find?_eq_none.mpr (fun x hx => by simpa using h x hx)]
      rfl
  · intro hpt k p hk hhit hbefore
    rw [hloop hpt]
    exact hitLoop_first_hit (2 * style.connection_point_diameter) mappedPos sp ports
      k p hk hhit hbefore

/-- Fixture for C8: point diameter 8 (tolerance 16); the port at index 0
lies far from the probe point, the port at index 1 within tolerance. -/
def exC8style : NodeStyle := ⟨.HORIZONTAL, 8⟩

def exC8p0 : Port := ⟨0, .output, 0, []⟩

def exC8p1 : Port := ⟨1, .output, 1, []⟩

def exC8pos : Port → ℚ × ℚ := fun p => if p.pid = 1 then (3, 4) else (100, 0)

/-- C8 witness: the scan skips the far port at index 0 and returns the
port at index 1, the lowest index within tolerance. -/
theorem claimC8_witness :
    check_hit_scene_point exC8style [(0, exC8p0), (1, exC8p1)] exC8pos (0, 0) .output
      = some exC8p1 := by
  refine (claimC8_first_hit exC8style [(0, exC8p0), (1, exC8p1)] exC8pos (0, 0)
    .output).2.2.2 (by decide) 1 (1, exC8p1) rfl (by norm_num [dist2, exC8pos, exC8p1, exC8style])
    ?_
  intro j q hj hq
  have hj0 : j = 0 := by omega
  subst hj0
  rw [List.getElem?_cons_zero, Option.some.injEq] at hq
  rw [← hq]
  norm_num [dist2, exC8pos, exC8p0, exC8style]

end ClaimC8

/-! Embedding of `connection_painter.py` as the ordered sequence of draw
calls a `paint` invocation issues to the painter.  Pen/brush settings are
folded into the tags of the drawn primitives. -/

/-- One drawing primitive issued by the connection painter, in issue
order: the fat hovered/selected halo path, the dashed sketch path, the
solid normal path (or its 60 gradient segments plus the conversion
pixmap), the debug overlay pieces, and the two endpoint dots. -/
inductive DrawCmd
| drawPathHalo
| drawPathSketch
| drawPathNormal
| drawLineSeg (i : Nat)
| drawPixmapConvert
| debugLine (i : Nat)
| debugEllipse (i : Nat)
| debugPath
| debugRect
| drawEllipseEndpoint (atSink : Bool)
deriving DecidableEq, Repr

/-- The connection as seen by the painter: `requires_port` is true while
one endpoint is still unattached (mid-drag); `hovered` comes from the
geometry, `selected` from the graphics object; the endpoint data-type
ids feed the gradient test. -/
structure PConnection where
  requires_port : Bool
  hovered : Bool
  selected : Bool
  data_type_out : Nat
  data_type_in : Nat
deriving DecidableEq, Repr

/-- The connection style fields that decide which primitives appear. -/
structure ConnStyle where
  use_data_defined_colors : Bool
deriving DecidableEq, Repr

/-- `draw_hovered_or_selected`: a fat background path iff hovered or
selected. -/
def draw_hovered_or_selected (conn : PConnection) : List DrawCmd :=
  if conn.hovered || conn.selected then [.drawPathHalo] else []

/-- `draw_sketch_line`: returns immediately unless the connection still
requires a port; otherwise one dashed construction path. -/
def draw_sketch_line (conn : PConnection) : List DrawCmd :=
  if ¬ conn.requires_port then [] else [.drawPathSketch]

/-- `draw_normal_line`: returns immediately while the connection still
requires a port; otherwise either the 60 gradient segments plus the
conversion pixmap (when data-defined colors are on and the endpoint
data types differ) or one solid path. -/
def draw_normal_line (conn : PConnection) (style : ConnStyle) : List DrawCmd :=
  if conn.requires_port then []
  else
    let gradient_color := style.use_data_defined_colors
      && decide (conn.data_type_out ≠ conn.data_type_in)
    if gradient_color then
      (List.range 60).map .drawLineSeg ++ [.drawPixmapConvert]
    else [.drawPathNormal]

/-- `debug_drawing`: three red lines, two control-point dots, the spline
path and the bounding rect. -/
def debug_drawing : List DrawCmd :=
  [.debugLine 0, .debugLine 1, .debugLine 2, .debugEllipse 0, .debugEllipse 1,
   .debugPath, .debugRect]

/-- `ConnectionPainter.paint`: halo, sketch line, normal line, optional
debug overlay (the module-global `use_debug_drawing` flag), then always
the two endpoint dots — source first, sink second — last. -/
def paint (use_debug_drawing : Bool) (conn : PConnection) (style : ConnStyle) :
    List DrawCmd :=
  draw_hovered_or_selected conn ++ draw_sketch_line conn ++ draw_normal_line conn style
    ++ (if use_debug_drawing then debug_drawing else [])
    ++ [.drawEllipseEndpoint false, .drawEllipseEndpoint true]

section ClaimC9

/-- C9: `paint` emits the dashed sketch line iff the connection still
requires a port, emits normal-line primitives iff it does not (the two
are mutually exclusive), and always ends with the two endpoint dots at
source and sink, after every other primitive — no endpoint dot occurs
earlier in the sequence. -/
theorem claimC9_paint_order (dbg : Bool) (conn : PConnection) (style : ConnStyle) :
    ((DrawCmd.drawPathSketch ∈ paint dbg conn style) ↔ conn.requires_port = true)
    ∧ ((DrawCmd.drawPathNormal ∈ paint dbg conn style
        ∨ ∃ i, DrawCmd.drawLineSeg i ∈ paint dbg conn style)
          ↔ ¬ conn.requires_port = true)
    ∧ ¬ (DrawCmd.drawPathSketch ∈ paint dbg conn style
          ∧ (DrawCmd.drawPathNormal ∈ paint dbg conn style
            ∨ ∃ i, DrawCmd.drawLineSeg i ∈ paint dbg conn style))
    ∧ (∃ l, paint dbg conn style
          = l ++ [DrawCmd.drawEllipseEndpoint false, DrawCmd.drawEllipseEndpoint true]
        ∧ ∀ c ∈ l, c ≠ DrawCmd.drawEllipseEndpoint false
          ∧ c ≠ DrawCmd.drawEllipseEndpoint true) := by
  have hsketch : (DrawCmd.drawPathSketch ∈ paint dbg conn style) ↔ conn.requires_port = true := by
    unfold paint draw_hovered_or_selected draw_sketch_line draw_normal_line debug_drawing
    cases hreq : conn.requires_port <;>
      cases hhov : conn.hovered <;>
      cases hsel : conn.selected <;>
      cases hdbg : dbg <;>
      by_cases hgrad : style.use_data_defined_colors = true
          ∧ ¬ conn.data_type_out = conn.data_type_in <;>
      simp [hgrad, List.mem_map]
  have hnormal : (DrawCmd.drawPathNormal ∈ paint dbg conn style
      ∨ ∃ i, DrawCmd.drawLineSeg i ∈ paint dbg conn style) ↔ ¬ conn.requires_port = true := by
    unfold paint draw_hovered_or_selected draw_sketch_line draw_normal_line debug_drawing
    cases hreq : conn.requires_port <;>
      cases hhov : conn.hovered <;>
      cases hsel : conn.selected <;>
      cases hdbg : dbg <;>
      by_cases hgrad : style.use_data_defined_colors = true
          ∧ ¬ conn.data_type_out = conn.data_type_in <;>
      simp [hgrad, List.mem_map] <;>
      exact ⟨0, by norm_num⟩
  refine ⟨hsketch, hnormal, ?_, ?_⟩
  · rintro ⟨h1, h2⟩
    exact (hnormal.mp h2) (hsketch.mp h1)
  · refine ⟨draw_hovered_or_selected conn ++ draw_sketch_line conn
      ++ draw_normal_line conn style ++ (if dbg then debug_drawing else []), ?_, ?_⟩
    · unfold paint
      simp [List.append_assoc]
    · intro c hc
      have hnot : ∀ b, DrawCmd.drawEllipseEndpoint b ∉ (draw_hovered_or_selected conn
          ++ draw_sketch_line conn ++ draw_normal_line conn style
          ++ (if dbg then debug_drawing else [])) := by
        intro b
        unfold draw_hovered_or_selected draw_sketch_line draw_normal_line debug_drawing
        simp only [List.mem_append, not_or]
        refine ⟨⟨⟨?_, ?_⟩, ?_⟩, ?_⟩
        · split <;> simp
        · split <;> simp
        · split
          · simp
          · split <;> simp
        · split <;> simp
      constructor
      · rintro rfl
        exact hnot false hc
      · rintro rfl
        exact hnot true hc

/-- Fixture for C9: a mid-drag connection (one endpoint unattached). -/
def exC9conn : PConnection := ⟨true, false, false, 1, 2⟩

def exC9style : ConnStyle := ⟨true⟩

/-- C9 witness: on the mid-drag fixture the dashed sketch line is
emitted. -/
theorem claimC9_witness :
    DrawCmd.drawPathSketch ∈ paint false exC9conn exC9style :=
  (claimC9_paint_order false exC9conn exC9style).1.mpr rfl

end ClaimC9

end Qtpy
